import Mathlib

set_option linter.unusedVariables false

/-!
# Verification of the images pipeline (`scrapy/pipelines/images.py`)

A shallow embedding of the image normalization and thumbnail-derivation
engine of the repository, together with proofs of the specified
properties.

Modelling conventions:
* machine integers are `Nat` with explicit reductions `% 2 ^ 32` where the
  source (or the hash algorithms it calls) works with 32-bit words;
* byte buffers (`BytesIO`) are `List Nat` of values `< 256`;
* fallible code returns `Except`/is paired with an `Option` error;
* the external image library (PIL) is embedded as explicit, executable
  Lean functions on an `Img` structure; operations whose pixel-level
  output the claims never inspect (the resampling filter, the JPEG
  codec) are given definite executable stand-ins and are documented as
  such at their definition sites.
-/

namespace Images

/-! ## Bytes, words and hex encoding -/

/-- 32-bit truncation. -/
def w32 (x : Nat) : Nat := x % 4294967296

/-- Left rotation of a 32-bit word by `n` bits (`0 < n < 32`). -/
def rotl32 (n x : Nat) : Nat := w32 (x <<< n) ||| (x >>> (32 - n))

/-- 32-bit complement. -/
def not32 (x : Nat) : Nat := x ^^^ 4294967295

/-- `k` bytes of `v`, big-endian (most significant first). -/
def beBytes : Nat → Nat → List Nat
  | 0, _ => []
  | k + 1, v => beBytes k (v >>> 8) ++ [v &&& 255]

/-- `k` bytes of `v`, little-endian (least significant first). -/
def leBytes : Nat → Nat → List Nat
  | 0, _ => []
  | k + 1, v => (v &&& 255) :: leBytes k (v >>> 8)

/-- Group bytes into consecutive 4-byte big-endian 32-bit words. -/
def beWords : List Nat → List Nat
  | b0 :: b1 :: b2 :: b3 :: rest => (((b0 * 256 + b1) * 256 + b2) * 256 + b3) :: beWords rest
  | _ => []

/-- Group bytes into consecutive 4-byte little-endian 32-bit words. -/
def leWords : List Nat → List Nat
  | b0 :: b1 :: b2 :: b3 :: rest => (b0 + 256 * (b1 + 256 * (b2 + 256 * b3))) :: leWords rest
  | _ => []

/-- A single lowercase hex digit. -/
def hexDigit (n : Nat) : Char :=
  if n < 10 then Char.ofNat (48 + n) else Char.ofNat (87 + n)

/-- Lowercase two-digit hex of one byte. -/
def byteToHex (b : Nat) : String :=
  String.mk [hexDigit (b >>> 4), hexDigit (b &&& 15)]

/-- Lowercase hex of a byte string (as `hexdigest` renders a digest). -/
def bytesToHex (bs : List Nat) : String :=
  String.join (bs.map byteToHex)

/-- Split a byte list into 64-byte blocks (the last block may be short;
padded inputs are always a multiple of 64). -/
def chunks64 : List Nat → List (List Nat)
  | [] => []
  | x :: xs => (x :: xs).take 64 :: chunks64 ((x :: xs).drop 64)
  termination_by l => l.length
  decreasing_by simp [List.length_drop]; omega

/-- Merkle–Damgård padding shared by MD5 and SHA-1: append `0x80`, then
zeros until the length is 56 mod 64, then the original bit length as
8 bytes (little-endian for MD5, big-endian for SHA-1). -/
def mdPad (lenEnc : Nat → List Nat) (msg : List Nat) : List Nat :=
  msg ++ 128 :: List.replicate ((119 - msg.length % 64) % 64) 0 ++ lenEnc (msg.length * 8)

/-! ## SHA-1 (`hashlib.sha1`), FIPS 180-4 -/

/-- SHA-1 round function `f_t`. -/
def sha1F (t b c d : Nat) : Nat :=
  if t < 20 then (b &&& c) ||| (not32 b &&& d)
  else if t < 40 then b ^^^ c ^^^ d
  else if t < 60 then (b &&& c) ||| (b &&& d) ||| (c &&& d)
  else b ^^^ c ^^^ d

/-- SHA-1 round constant `K_t`. -/
def sha1K (t : Nat) : Nat :=
  if t < 20 then 0x5A827999
  else if t < 40 then 0x6ED9EBA1
  else if t < 60 then 0x8F1BBCDC
  else 0xCA62C1D6

/-- Expand the 16 message words of a block to the 80-word schedule. -/
def sha1Expand (ws : List Nat) : Array Nat :=
  (List.range 64).foldl
    (fun w i =>
      w.push (rotl32 1 (w.getD (i + 13) 0 ^^^ w.getD (i + 8) 0 ^^^ w.getD (i + 2) 0 ^^^ w.getD i 0)))
    ws.toArray

/-- One SHA-1 compression step over a 64-byte block. -/
def sha1Compress (h : Nat × Nat × Nat × Nat × Nat) (block : List Nat) :
    Nat × Nat × Nat × Nat × Nat :=
  let w := sha1Expand (beWords block)
  let (h0, h1, h2, h3, h4) := h
  let (a, b, c, d, e) :=
    (List.range 80).foldl
      (fun (s : Nat × Nat × Nat × Nat × Nat) t =>
        let (a, b, c, d, e) := s
        let tmp := w32 (rotl32 5 a + sha1F t b c d + e + sha1K t + w.getD t 0)
        (tmp, a, rotl32 30 b, c, d))
      (h0, h1, h2, h3, h4)
  (w32 (h0 + a), w32 (h1 + b), w32 (h2 + c), w32 (h3 + d), w32 (h4 + e))

/-- SHA-1 digest of a byte string, as 20 bytes. -/
def sha1Bytes (msg : List Nat) : List Nat :=
  let (h0, h1, h2, h3, h4) :=
    (chunks64 (mdPad (beBytes 8) msg)).foldl sha1Compress
      (0x67452301, 0xEFCDAB89, 0x98BADCFE, 0x10325476, 0xC3D2E1F0)
  beBytes 4 h0 ++ beBytes 4 h1 ++ beBytes 4 h2 ++ beBytes 4 h3 ++ beBytes 4 h4

/-- `hashlib.sha1(data).hexdigest()`. -/
def sha1Hex (msg : List Nat) : String := bytesToHex (sha1Bytes msg)

/-! ## MD5 (`hashlib.md5`), RFC 1321 -/

/-- The 64 MD5 sine-derived constants `K[i] = floor(2^32 * |sin(i+1)|)`. -/
def md5K : List Nat :=
  [0xd76aa478, 0xe8c7b756, 0x242070db, 0xc1bdceee,
   0xf57c0faf, 0x4787c62a, 0xa8304613, 0xfd469501,
   0x698098d8, 0x8b44f7af, 0xffff5bb1, 0x895cd7be,
   0x6b901122, 0xfd987193, 0xa679438e, 0x49b40821,
   0xf61e2562, 0xc040b340, 0x265e5a51, 0xe9b6c7aa,
   0xd62f105d, 0x02441453, 0xd8a1e681, 0xe7d3fbc8,
   0x21e1cde6, 0xc33707d6, 0xf4d50d87, 0x455a14ed,
   0xa9e3e905, 0xfcefa3f8, 0x676f02d9, 0x8d2a4c8a,
   0xfffa3942, 0x8771f681, 0x6d9d6122, 0xfde5380c,
   0xa4beea44, 0x4bdecfa9, 0xf6bb4b60, 0xbebfbc70,
   0x289b7ec6, 0xeaa127fa, 0xd4ef3085, 0x04881d05,
   0xd9d4d039, 0xe6db99e5, 0x1fa27cf8, 0xc4ac5665,
   0xf4292244, 0x432aff97, 0xab9423a7, 0xfc93a039,
   0x655b59c3, 0x8f0ccc92, 0xffeff47d, 0x85845dd1,
   0x6fa87e4f, 0xfe2ce6e0, 0xa3014314, 0x4e0811a1,
   0xf7537e82, 0xbd3af235, 0x2ad7d2bb, 0xeb86d391]

/-- MD5 per-round left-rotation amounts. -/
def md5S : List Nat :=
  [7, 12, 17, 22, 7, 12, 17, 22, 7, 12, 17, 22, 7, 12, 17, 22,
   5, 9, 14, 20, 5, 9, 14, 20, 5, 9, 14, 20, 5, 9, 14, 20,
   4, 11, 16, 23, 4, 11, 16, 23, 4, 11, 16, 23, 4, 11, 16, 23,
   6, 10, 15, 21, 6, 10, 15, 21, 6, 10, 15, 21, 6, 10, 15, 21]

/-- MD5 round mixing function. -/
def md5F (i b c d : Nat) : Nat :=
  if i < 16 then (b &&& c) ||| (not32 b &&& d)
  else if i < 32 then (d &&& b) ||| (not32 d &&& c)
  else if i < 48 then b ^^^ c ^^^ d
  else c ^^^ (b ||| not32 d)

/-- MD5 message-word index for round `i`. -/
def md5G (i : Nat) : Nat :=
  if i < 16 then i
  else if i < 32 then (5 * i + 1) % 16
  else if i < 48 then (3 * i + 5) % 16
  else (7 * i) % 16

/-- One MD5 compression step over a 64-byte block. -/
def md5Compress (h : Nat × Nat × Nat × Nat) (block : List Nat) : Nat × Nat × Nat × Nat :=
  let m := leWords block
  let (h0, h1, h2, h3) := h
  let (a, b, c, d) :=
    (List.range 64).foldl
      (fun (s : Nat × Nat × Nat × Nat) i =>
        let (a, b, c, d) := s
        let rot := rotl32 (md5S.getD i 0) (w32 (a + md5F i b c d + md5K.getD i 0 + m.getD (md5G i) 0))
        (d, w32 (b + rot), b, c))
      (h0, h1, h2, h3)
  (w32 (h0 + a), w32 (h1 + b), w32 (h2 + c), w32 (h3 + d))

/-- MD5 digest of a byte string, as 16 bytes. -/
def md5Bytes (msg : List Nat) : List Nat :=
  let (h0, h1, h2, h3) :=
    (chunks64 (mdPad (leBytes 8) msg)).foldl md5Compress
      (0x67452301, 0xefcdab89, 0x98badcfe, 0x10325476)
  leBytes 4 h0 ++ leBytes 4 h1 ++ leBytes 4 h2 ++ leBytes 4 h3

/-- `hashlib.md5(data).hexdigest()`; `_md5sum(buf)` in
`scrapy/pipelines/files.py` reads a whole buffer and returns exactly
this hex digest of its bytes. -/
def md5Hex (msg : List Nat) : String := bytesToHex (md5Bytes msg)

/-! ## `to_bytes` (UTF-8 encoding of the request URL) -/

/-- UTF-8 encoding of one Unicode code point. -/
def utf8EncodeCp (c : Nat) : List Nat :=
  if c < 128 then [c]
  else if c < 2048 then [192 ||| (c >>> 6), 128 ||| (c &&& 63)]
  else if c < 65536 then
    [224 ||| (c >>> 12), 128 ||| ((c >>> 6) &&& 63), 128 ||| (c &&& 63)]
  else
    [240 ||| (c >>> 18), 128 ||| ((c >>> 12) &&& 63), 128 ||| ((c >>> 6) &&& 63),
     128 ||| (c &&& 63)]

/-- `scrapy.utils.python.to_bytes(text)` with the default UTF-8 encoding:
the byte encoding of a string. -/
def to_bytes (s : String) : List Nat :=
  (s.data.map (fun c => utf8EncodeCp c.toNat)).flatten

/-! ## The image model (PIL `Image.Image`)

A decoded image: dimensions, color mode string, source format tag
(`None` for images produced in memory, e.g. by `convert`), an optional
palette (consulted when `mode = "P"`, where a pixel's `r` channel holds
the palette index), and the pixel raster. -/

/-- One pixel; channels are bytes (`< 256`).  For mode `"P"` the `r`
field holds the palette index; for modes without alpha the `a` field is
255. -/
structure Pix where
  r : Nat
  g : Nat
  b : Nat
  a : Nat
deriving DecidableEq

/-- Opaque white, `(255, 255, 255)` with full alpha. -/
def whitePix : Pix := ⟨255, 255, 255, 255⟩

/-- A decoded in-memory image (PIL `Image.Image`). -/
structure Img where
  width : Nat
  height : Nat
  mode : String
  format : Option String
  palette : Nat → Pix
  px : Nat → Nat → Pix

/-- `Image.new(mode, size, color)`: a fresh image of constant color; its
`format` attribute is `None`.  (For an RGBA mode PIL completes a 3-tuple
color with alpha 255; callers below pass the completed `Pix`.) -/
def imageNew (mode : String) (w h : Nat) (color : Pix) : Img :=
  { width := w, height := h, mode := mode, format := none,
    palette := fun _ => ⟨0, 0, 0, 0⟩, px := fun _ _ => color }

/-- Per-pixel part of `Image.convert(target)`: palette lookup for `"P"`
sources, alpha dropped when leaving an alpha mode, gray replicated from
`"L"`; channel arithmetic of other conversions (e.g. CMYK) is performed
by PIL and not inspected by any claim. -/
def convertPx (img : Img) (target : String) (x y : Nat) : Pix :=
  let p := img.px x y
  if img.mode = "P" then
    if target = "RGBA" then img.palette p.r
    else
      let q := img.palette p.r
      { q with a := 255 }
  else if img.mode = "L" then { r := p.r, g := p.r, b := p.r, a := 255 }
  else if target = "RGB" then { p with a := 255 }
  else p

/-- `Image.convert(target)`: returns a new image in mode `target`; the
returned image's `format` attribute is `None`. -/
def convert (img : Img) (target : String) : Img :=
  { img with mode := target, format := none, px := convertPx img target }

/-- Pillow's `MULDIV255(v, m)`: `(v * m + 128)` folded so the result is
`round(v * m / 255)` for bytes. -/
def mulDiv255 (v m : Nat) : Nat :=
  let t := v * m + 128
  ((t >>> 8) + t) >>> 8

/-- One channel of Pillow's masked paste: blend of background and source
weighted by the 8-bit mask value `m`. -/
def blendChan (bg src m : Nat) : Nat :=
  mulDiv255 bg (255 - m) + mulDiv255 src m

/-- Blend two pixels by the 8-bit mask value `m` (all four channels). -/
def blendPix (bg src : Pix) (m : Nat) : Pix :=
  ⟨blendChan bg.r src.r m, blendChan bg.g src.g m,
   blendChan bg.b src.b m, blendChan bg.a src.a m⟩

/-- `background.paste(im, im)`: PIL treats the second argument as the
mask when it is an image; for an RGBA mask its alpha band is used.  The
background is blended with the source pointwise; mode, size and format
of the background are kept. -/
def paste (bg src mask : Img) : Img :=
  { bg with px := fun x y => blendPix (bg.px x y) (src.px x y) ((mask.px x y).a) }

/-! ## Pillow's `thumbnail` size computation -/

/-- Pillow's `round_aspect(number, key)`:
`max(min(floor(number), ceil(number), key=key), 1)` — the rounding of
`number` whose `key` penalty is smaller (floor on ties), clamped below
at 1. -/
def round_aspect (number : ℚ) (key : Nat → ℚ) : Nat :=
  max (if key ⌊number⌋₊ ≤ key ⌈number⌉₊ then ⌊number⌋₊ else ⌈number⌉₊) 1

/-- Pillow's `Image.thumbnail` target-size computation
(`preserve_aspect_ratio`): given current size `(w, h)` and requested box
`(x, y)`, keep the size when the box already contains the image,
otherwise shrink the longer-relative axis to the box and round the other
to best preserve `w / h`. -/
def pil_thumbnail_size (w h x y : Nat) : Nat × Nat :=
  if x ≥ w ∧ y ≥ h then (w, h)
  else
    let aspect : ℚ := (w : ℚ) / (h : ℚ)
    if (x : ℚ) / (y : ℚ) ≥ aspect then
      (round_aspect ((y : ℚ) * aspect) (fun n => |aspect - (n : ℚ) / (y : ℚ)|), y)
    else
      (x, round_aspect ((x : ℚ) / aspect)
            (fun n => if n = 0 then 0 else |aspect - (x : ℚ) / (n : ℚ)|))

/-- `image.thumbnail(size, resampling_filter)`: in-place downscale to
`pil_thumbnail_size`; a no-op when the computed size equals the current
size.  The Lanczos resampling filter runs inside PIL; its pixel output
is modelled as a definite sampling stand-in, which no claim inspects.
The `format` attribute is untouched. -/
def thumbnailOp (img : Img) (size : Nat × Nat) : Img :=
  let s := pil_thumbnail_size img.width img.height size.1 size.2
  if s = (img.width, img.height) then img
  else
    { img with
      width := s.1
      height := s.2
      px := fun x y => img.px (x * img.width / s.1) (y * img.height / s.2) }

/-! ## The JPEG codec (`image.save(buf, "JPEG")`)

The codec itself is external (PIL); the claims never decode the bytes it
produces, only compare, hash and store them.  It is modelled as a
definite executable serialization of the image: a JPEG SOI marker, the
dimensions, and the row-major RGB raster. -/

/-- Stand-in for PIL's JPEG encoder: SOI marker, big-endian dimensions,
then the row-major RGB raster. -/
def saveJPEG (img : Img) : List Nat :=
  255 :: 216 :: beBytes 4 img.width ++ beBytes 4 img.height ++
    ((List.range img.height).map (fun y =>
      ((List.range img.width).map (fun x =>
        let p := img.px x y
        [p.r, p.g, p.b])).flatten)).flatten

/-! ## Requests, responses and errors -/

/-- The part of `scrapy.http.Request` the pipeline reads: the URL. -/
structure Request where
  url : String
deriving DecidableEq

/-- The part of `scrapy.http.Response` the pipeline reads: the body. -/
structure Response where
  body : List Nat
deriving DecidableEq

/-- `ImageException` (a `FileException`): carries its message. -/
structure ImageException where
  msg : String
deriving DecidableEq

/-- The message of the too-small `ImageException`, exactly as the
f-string in `get_images` renders it. -/
def tooSmallMsg (w h mw mh : Nat) : String :=
  "Image too small (" ++ toString w ++ "x" ++ toString h ++ " < " ++
    toString mw ++ "x" ++ toString mh ++ ")"

/-- The configured state of an `ImagesPipeline` instance that the
per-item image processing reads: the minimum-dimension policy, the
insertion-ordered thumbnail mapping `IMAGES_THUMBS` (a Python dict,
embedded as an association list in insertion order), and the external
image decoder `self._Image.open` (PIL), embedded as a function from
response bytes to the decoded image. -/
structure ImagesPipeline where
  min_width : Nat := 0
  min_height : Nat := 0
  thumbs : List (String × Nat × Nat) := []
  Image_open : List Nat → Img

/-! ## Storage paths (`file_path`, `thumb_path`) -/

/-- `ImagesPipeline.file_path`: `full/<sha1 hex of the URL bytes>.jpg`.
`response`, `info` and `item` are accepted (as in the source signature)
and ignored; `Info` and `Item` are arbitrary caller types since the
source annotates them as externally-owned/`Any`. -/
def file_path {Info Item : Type} (request : Request) (response : Option Response)
    (info : Option Info) (item : Option Item) : String :=
  "full/" ++ sha1Hex (to_bytes request.url) ++ ".jpg"

/-- `ImagesPipeline.thumb_path`:
`thumbs/<thumb_id>/<sha1 hex of the URL bytes>.jpg`. -/
def thumb_path {Info Item : Type} (request : Request) (thumb_id : String)
    (response : Option Response) (info : Option Info) (item : Option Item) : String :=
  "thumbs/" ++ thumb_id ++ "/" ++ sha1Hex (to_bytes request.url) ++ ".jpg"

/-! ## `convert_image` -/

/-- The color-normalization stage at the top of `convert_image`: the
three-armed `if` chain reassigning `image`.  Transparent PNG/WEBP input
is composited over opaque white; palette input is expanded to RGBA and
composited the same way; any remaining non-RGB mode is converted
directly; RGB input is returned untouched. -/
def normalizeColor (image : Img) : Img :=
  if (image.format = some "PNG" ∨ image.format = some "WEBP") ∧ image.mode = "RGBA" then
    let background := imageNew "RGBA" image.width image.height whitePix
    let background := paste background image image
    convert background "RGB"
  else if image.mode = "P" then
    let imageA := convert image "RGBA"
    let background := imageNew "RGBA" imageA.width imageA.height whitePix
    let background := paste background imageA imageA
    convert background "RGB"
  else if image.mode ≠ "RGB" then
    convert image "RGB"
  else
    image

/-- `ImagesPipeline.convert_image(image, size, response_body)` (the
non-deprecated signature; `self` is only the PIL handle).  Color
normalization, then either the bounding-box thumbnail + fresh JPEG
encode (when a size is given), or the passthrough of `response_body`
when the image is still tagged as JPEG, or a fresh JPEG encode.
(`image.copy()` before the in-place `thumbnail` is the identity in this
pure embedding; `thumbnailOp` returns a new image.) -/
def convert_image (image : Img) (size : Option (Nat × Nat))
    (response_body : Option (List Nat)) : Img × List Nat :=
  let image := normalizeColor image
  match size with
  | some sz =>
    let image := thumbnailOp image sz
    (image, saveJPEG image)
  | none =>
    match response_body with
    | some rb => if image.format = some "JPEG" then (image, rb) else (image, saveJPEG image)
    | none => (image, saveJPEG image)

/-! ## `get_images` (generator) and `image_downloaded` (consumer)

`get_images` is a Python generator consumed by `image_downloaded`'s
`for` loop: an exception raised inside the generator propagates at the
consumer's `next()`, so the consumer sees the triples yielded so far and
then the exception.  The embedding therefore returns the list of yielded
triples paired with the optional exception that ended the iteration.

`convert_image` is an overridable method (the source carries explicit
machinery for detecting overridden signatures), and PIL itself may raise
while deriving a variant; the conversion step is therefore a parameter
of type `Converter`, with `defaultConverter` the (total) method defined
above.  The deprecated-override path (`self._deprecated_convert_image`)
only changes which arguments are forwarded; the embedding models the
modern path. -/

/-- The conversion step as seen by `get_images`: a possibly-raising
`(image, size, response_body) ↦ (image, buf)`. -/
def Converter : Type :=
  Img → Option (Nat × Nat) → Option (List Nat) → Except ImageException (Img × List Nat)

/-- The unoverridden `convert_image` method, which never raises. -/
def defaultConverter : Converter := fun image size response_body =>
  .ok (convert_image image size response_body)

/-- The thumbnail loop at the end of `get_images`: one
`(thumb_path, image, buf)` triple per configured thumbnail entry, in
order, stopping with the exception if the conversion of one raises. -/
def run_thumbs {Info Item : Type} (conv : Converter) (request : Request)
    (response : Option Response) (info : Option Info) (item : Option Item)
    (image : Img) (buf : List Nat) :
    List (String × Nat × Nat) → List (String × Img × List Nat) × Option ImageException
  | [] => ([], none)
  | (thumb_id, size) :: rest =>
    let tpath := thumb_path request thumb_id response info item
    match conv image (some size) (some buf) with
    | .error e => ([], some e)
    | .ok (timg, tbuf) =>
      let r := run_thumbs conv request response info item image buf rest
      ((tpath, timg, tbuf) :: r.1, r.2)

/-- `ImagesPipeline.get_images`, with the conversion step abstracted:
decode, validate minimum dimensions (raising the too-small
`ImageException` before anything is yielded), yield the full-size
triple, then yield one triple per configured thumbnail. -/
def get_images_with {Info Item : Type} (conv : Converter) (p : ImagesPipeline)
    (response : Response) (request : Request) (info : Option Info) (item : Option Item) :
    List (String × Img × List Nat) × Option ImageException :=
  let path := file_path request (some response) info item
  let orig_image := p.Image_open response.body
  if orig_image.width < p.min_width ∨ orig_image.height < p.min_height then
    ([], some ⟨tooSmallMsg orig_image.width orig_image.height p.min_width p.min_height⟩)
  else
    match conv orig_image none (some response.body) with
    | .error e => ([], some e)
    | .ok (image, buf) =>
      let r := run_thumbs conv request (some response) info item image buf p.thumbs
      ((path, image, buf) :: r.1, r.2)

/-- `ImagesPipeline.get_images` with the unoverridden `convert_image`. -/
def get_images {Info Item : Type} (p : ImagesPipeline) (response : Response)
    (request : Request) (info : Option Info) (item : Option Item) :
    List (String × Img × List Nat) × Option ImageException :=
  get_images_with defaultConverter p response request info item

/-- One `store.persist_file(path, buf, info, meta=..., headers=...)`
call as issued by `image_downloaded` (the store backend is external). -/
structure PersistCall where
  path : String
  buf : List Nat
  meta_width : Nat
  meta_height : Nat
  content_type : String
deriving DecidableEq

/-- How a run of `image_downloaded` can fail: an `ImageException`
propagating out of `get_images`, or the final `assert checksum is not
None` failing. -/
inductive PipelineError where
  | image (e : ImageException)
  | assertionFailed
deriving DecidableEq

/-- The loop state of `image_downloaded`: the `checksum` local, the
persist calls issued so far, and (ghost instrumentation of the
`if checksum is None` guard) how many times `_md5sum` has run. -/
structure LoopState where
  checksum : Option String
  persisted : List PersistCall
  md5_calls : Nat
deriving DecidableEq

/-- One iteration of the `for` loop in `image_downloaded`: compute the
checksum if it is still unset, then persist the buffer with
width/height metadata and the JPEG content type. -/
def persistStep (st : LoopState) (t : String × Img × List Nat) : LoopState :=
  let st :=
    match st.checksum with
    | none => { st with checksum := some (md5Hex t.2.2), md5_calls := st.md5_calls + 1 }
    | some _ => st
  { st with
    persisted := st.persisted ++
      [⟨t.1, t.2.2, t.2.1.width, t.2.1.height, "image/jpeg"⟩] }

/-- `ImagesPipeline.image_downloaded`, with the conversion step
abstracted: iterate `get_images`, hashing the first buffer and
persisting every triple; an exception from the generator propagates
after the persists already issued; otherwise the final assertion
demands a checksum, which is returned. -/
def image_downloaded_with {Info Item : Type} (conv : Converter) (p : ImagesPipeline)
    (response : Response) (request : Request) (info : Option Info) (item : Option Item) :
    List PersistCall × Except PipelineError String :=
  let r := get_images_with conv p response request info item
  let st := r.1.foldl persistStep ⟨none, [], 0⟩
  match r.2 with
  | some e => (st.persisted, .error (.image e))
  | none =>
    match st.checksum with
    | some c => (st.persisted, .ok c)
    | none => (st.persisted, .error .assertionFailed)

/-- `ImagesPipeline.image_downloaded` with the unoverridden
`convert_image`. -/
def image_downloaded {Info Item : Type} (p : ImagesPipeline) (response : Response)
    (request : Request) (info : Option Info) (item : Option Item) :
    List PersistCall × Except PipelineError String :=
  image_downloaded_with defaultConverter p response request info item

/-! ## Concrete instances for evaluation -/

/-- A small already-canonical JPEG: 4×3, mode RGB. -/
def exJpegImg : Img :=
  { width := 4, height := 3, mode := "RGB", format := some "JPEG",
    palette := fun _ => ⟨0, 0, 0, 0⟩, px := fun _ _ => ⟨10, 20, 30, 255⟩ }

/-- A 2×2 RGBA PNG whose pixels are fully transparent. -/
def exPngImg : Img :=
  { width := 2, height := 2, mode := "RGBA", format := some "PNG",
    palette := fun _ => ⟨0, 0, 0, 0⟩, px := fun _ _ => ⟨7, 8, 9, 0⟩ }

/-- A response body (the first bytes of a JPEG stream). -/
def exRsp : Response := ⟨[255, 216, 224, 0, 16]⟩

/-- A request. -/
def exReq : Request := ⟨"http://example.com/a.jpg"⟩

/-- A second request for the same URL. -/
def exReq2 : Request := ⟨"http://example.com/a.jpg"⟩

/-- A pipeline with two configured thumbnails whose decoder yields
`exJpegImg`. -/
def exPipe : ImagesPipeline :=
  { thumbs := [("small", 100, 100), ("large", 300, 300)],
    Image_open := fun _ => exJpegImg }

/-- A pipeline with a 50×50 minimum whose decoder yields the 4×3
`exJpegImg`. -/
def exStrictPipe : ImagesPipeline :=
  { min_width := 50, min_height := 50,
    thumbs := [("small", 100, 100)], Image_open := fun _ => exJpegImg }

/-- A pipeline whose 4×3 minimum sits exactly at `exJpegImg`'s size. -/
def exExactPipe : ImagesPipeline :=
  { min_width := 4, min_height := 3, thumbs := [], Image_open := fun _ => exJpegImg }

/-- An overridden/failing conversion step: deriving any resized variant
raises, the full-size variant succeeds. -/
def exFailConv : Converter := fun image size response_body =>
  match size with
  | some _ => .error ⟨"thumbnail failed"⟩
  | none => .ok (convert_image image none response_body)

/-! ## Basic facts about the image operations -/

theorem convert_mode (img : Img) (t : String) : (convert img t).mode = t := rfl

theorem normalizeColor_mode (img : Img) : (normalizeColor img).mode = "RGB" := by
  unfold normalizeColor
  repeat' split
  all_goals simp_all [convert]

theorem normalizeColor_width (img : Img) : (normalizeColor img).width = img.width := by
  unfold normalizeColor
  repeat' split
  all_goals rfl

theorem normalizeColor_height (img : Img) : (normalizeColor img).height = img.height := by
  unfold normalizeColor
  repeat' split
  all_goals rfl

theorem normalizeColor_rgb_noop (img : Img) (h : img.mode = "RGB") :
    normalizeColor img = img := by
  unfold normalizeColor
  rw [if_neg (by simp [h]), if_neg (by simp [h]), if_neg (by simp [h])]

theorem thumbnailOp_mode (img : Img) (sz : Nat × Nat) :
    (thumbnailOp img sz).mode = img.mode := by
  unfold thumbnailOp
  dsimp only
  split <;> rfl

theorem thumbnailOp_size (img : Img) (sz : Nat × Nat) :
    ((thumbnailOp img sz).width, (thumbnailOp img sz).height) =
      pil_thumbnail_size img.width img.height sz.1 sz.2 := by
  unfold thumbnailOp
  dsimp only
  split
  · next h => exact h.symm
  · rfl

theorem convert_image_none_fst (image : Img) (rb : Option (List Nat)) :
    (convert_image image none rb).1 = normalizeColor image := by
  unfold convert_image
  cases rb with
  | none => rfl
  | some b =>
    dsimp only
    split <;> rfl

theorem convert_image_some_eq (image : Img) (sz : Nat × Nat) (rb : Option (List Nat)) :
    convert_image image (some sz) rb =
      (thumbnailOp (normalizeColor image) sz, saveJPEG (thumbnailOp (normalizeColor image) sz)) :=
  rfl

theorem mulDiv255_zero (s : Nat) : mulDiv255 s 0 = 0 := by
  simp [mulDiv255]

theorem mulDiv255_id : mulDiv255 255 255 = 255 := by decide

theorem blendChan_white (s : Nat) : blendChan 255 s 0 = 255 := by
  simp [blendChan, mulDiv255_zero, mulDiv255_id]

/-! ## Claims -/

/-- C4: color normalization is total and canonicalizing — for every
decoded input image, of any color mode and any source format, the image
returned by `convert_image` is in the 3-channel no-alpha canonical
color model (mode RGB). -/
theorem normalization_canonical_mode (image : Img) (size : Option (Nat × Nat))
    (response_body : Option (List Nat)) :
    (convert_image image size response_body).1.mode = "RGB" := by
  have h := normalizeColor_mode image
  cases size with
  | some sz =>
    rw [convert_image_some_eq]
    simpa [thumbnailOp_mode] using h
  | none => rwa [convert_image_none_fst]

/-- C1: passthrough law — when the source is already JPEG, no resize is
requested and color normalization is a no-op (the image is already mode
RGB), `convert_image` returns the original response-body bytes
unchanged; and whenever a resize size is given, the returned buffer is
the fresh JPEG encoding of the resized image, entirely independent of
the passed-in response body. -/
theorem passthrough_law :
    (∀ (image : Img) (rb : List Nat), image.format = some "JPEG" → image.mode = "RGB" →
      convert_image image none (some rb) = (image, rb)) ∧
    (∀ (image : Img) (sz : Nat × Nat) (rb : Option (List Nat)),
      (convert_image image (some sz) rb).2 = saveJPEG (convert_image image (some sz) rb).1 ∧
      convert_image image (some sz) rb = convert_image image (some sz) none) := by
  constructor
  · intro image rb hf hm
    unfold convert_image
    rw [normalizeColor_rgb_noop image hm]
    simp [hf]
  · intro image sz rb
    exact ⟨rfl, rfl⟩

/-- Witness for C1 at a concrete already-canonical JPEG source. -/
theorem passthrough_law_witness :
    convert_image exJpegImg none (some exRsp.body) = (exJpegImg, exRsp.body) :=
  passthrough_law.1 exJpegImg exRsp.body rfl rfl

/-- C9: transparency flattens to white — a transparent PNG/WEBP RGBA
pixel, and a palette pixel whose palette entry is transparent, both
normalize to opaque white `(255, 255, 255)`, never black. -/
theorem transparency_flattens_white (image : Img) (x y : Nat) (rb : Option (List Nat)) :
    ((image.format = some "PNG" ∨ image.format = some "WEBP") → image.mode = "RGBA" →
      (image.px x y).a = 0 →
      (convert_image image none rb).1.px x y = whitePix) ∧
    (image.mode = "P" → (image.palette (image.px x y).r).a = 0 →
      (convert_image image none rb).1.px x y = whitePix) := by
  constructor
  · intro hf hm ha
    rw [convert_image_none_fst]
    unfold normalizeColor
    rw [if_pos ⟨hf, hm⟩]
    simp [convert, convertPx, paste, imageNew, blendPix, ha, blendChan_white, whitePix]
  · intro hm ha
    rw [convert_image_none_fst]
    unfold normalizeColor
    rw [if_neg (by simp [hm]), if_pos hm]
    simp [convert, convertPx, paste, imageNew, blendPix, hm, ha, blendChan_white, whitePix]

/-- Witness for C9 at a concrete fully transparent PNG. -/
theorem transparency_flattens_white_witness :
    (convert_image exPngImg none none).1.px 0 0 = whitePix :=
  (transparency_flattens_white exPngImg 0 0 none).1 (Or.inl rfl) rfl rfl

/-- C7: storage paths are a pure, deterministic function of the request
identifier (and thumbnail label) only, matching the
`full/<hash>.jpg` / `thumbs/<label>/<hash>.jpg` templates with the
shared SHA-1 hash of the URL, independent of response, info and item. -/
theorem storage_paths_deterministic {Info Item Info2 Item2 : Type}
    (request request2 : Request) (thumb_id : String) (r r2 : Option Response)
    (info : Option Info) (info2 : Option Info2) (item : Option Item) (item2 : Option Item2) :
    file_path request r info item = "full/" ++ sha1Hex (to_bytes request.url) ++ ".jpg" ∧
    thumb_path request thumb_id r info item =
      "thumbs/" ++ thumb_id ++ "/" ++ sha1Hex (to_bytes request.url) ++ ".jpg" ∧
    (request.url = request2.url →
      file_path request r info item = file_path request2 r2 info2 item2 ∧
      thumb_path request thumb_id r info item = thumb_path request2 thumb_id r2 info2 item2) := by
  refine ⟨rfl, rfl, fun h => ⟨?_, ?_⟩⟩ <;> simp [file_path, thumb_path, h]

/-- Witness for C7: two requests for the same URL, with different
responses, info and item types, share both storage paths. -/
theorem storage_paths_deterministic_witness :
    file_path exReq (some exRsp) (none : Option Unit) (none : Option Unit) =
      file_path exReq2 none (some true) (none : Option Nat) ∧
    thumb_path exReq "small" (some exRsp) (none : Option Unit) (none : Option Unit) =
      thumb_path exReq2 "small" none (some true) (none : Option Nat) :=
  (storage_paths_deterministic exReq exReq2 "small" (some exRsp) none none (some true)
    none none).2.2 rfl

/-! ## The generator and its consumer -/

theorem run_thumbs_default {Info Item : Type} (request : Request) (response : Option Response)
    (info : Option Info) (item : Option Item) (image : Img) (buf : List Nat)
    (l : List (String × Nat × Nat)) :
    run_thumbs defaultConverter request response info item image buf l =
      (l.map (fun ts => (thumb_path request ts.1 response info item,
        convert_image image (some ts.2) (some buf))), none) := by
  induction l with
  | nil => rfl
  | cons t rest ih =>
    obtain ⟨tid, tsz⟩ := t
    simp [run_thumbs, defaultConverter, ih]

theorem get_images_reject {Info Item : Type} (p : ImagesPipeline) (rsp : Response)
    (req : Request) (info : Option Info) (item : Option Item)
    (h : (p.Image_open rsp.body).width < p.min_width ∨
      (p.Image_open rsp.body).height < p.min_height) :
    get_images p rsp req info item =
      ([], some ⟨tooSmallMsg (p.Image_open rsp.body).width (p.Image_open rsp.body).height
        p.min_width p.min_height⟩) := by
  unfold get_images get_images_with
  rw [if_pos h]

theorem get_images_accept {Info Item : Type} (p : ImagesPipeline) (rsp : Response)
    (req : Request) (info : Option Info) (item : Option Item)
    (h : ¬((p.Image_open rsp.body).width < p.min_width ∨
      (p.Image_open rsp.body).height < p.min_height)) :
    get_images p rsp req info item =
      ((file_path req (some rsp) info item,
        convert_image (p.Image_open rsp.body) none (some rsp.body)) ::
        p.thumbs.map (fun ts => (thumb_path req ts.1 (some rsp) info item,
          convert_image (convert_image (p.Image_open rsp.body) none (some rsp.body)).1
            (some ts.2)
            (some (convert_image (p.Image_open rsp.body) none (some rsp.body)).2))),
       none) := by
  unfold get_images get_images_with
  rw [if_neg h]
  rcases hc : convert_image (p.Image_open rsp.body) none (some rsp.body) with ⟨image, buf⟩
  simp [defaultConverter, hc, run_thumbs_default]

theorem image_downloaded_eq {Info Item : Type} (p : ImagesPipeline) (rsp : Response)
    (req : Request) (info : Option Info) (item : Option Item) :
    image_downloaded p rsp req info item =
      (let r := get_images p rsp req info item
       let st := r.1.foldl persistStep ⟨none, [], 0⟩
       match r.2 with
       | some e => (st.persisted, .error (.image e))
       | none =>
         match st.checksum with
         | some c => (st.persisted, .ok c)
         | none => (st.persisted, .error .assertionFailed)) :=
  rfl

theorem persistFold_some (c : String) (ps : List PersistCall) (n : Nat)
    (l : List (String × Img × List Nat)) :
    (l.foldl persistStep ⟨some c, ps, n⟩).checksum = some c ∧
    (l.foldl persistStep ⟨some c, ps, n⟩).md5_calls = n := by
  induction l generalizing ps with
  | nil => exact ⟨rfl, rfl⟩
  | cons t rest ih => simpa [persistStep] using ih _

theorem persistFold_cons (t : String × Img × List Nat) (l : List (String × Img × List Nat)) :
    ((t :: l).foldl persistStep ⟨none, [], 0⟩).checksum = some (md5Hex t.2.2) ∧
    ((t :: l).foldl persistStep ⟨none, [], 0⟩).md5_calls = 1 := by
  have h := persistFold_some (md5Hex t.2.2)
    [⟨t.1, t.2.2, t.2.1.width, t.2.1.height, "image/jpeg"⟩] 1 l
  simpa [persistStep] using h

/-- C5: minimum-dimension validation is an inclusive bound and atomic —
the pipeline rejects the source with the too-small error carrying the
actual and required dimensions if and only if `w < min_w ∨ h < min_h`
(an image exactly at the minimums is accepted), and a rejected source
yields zero artifacts. -/
theorem min_size_validation {Info Item : Type} (p : ImagesPipeline) (rsp : Response)
    (req : Request) (info : Option Info) (item : Option Item) :
    ((p.Image_open rsp.body).width < p.min_width ∨
        (p.Image_open rsp.body).height < p.min_height →
      get_images p rsp req info item =
        ([], some ⟨tooSmallMsg (p.Image_open rsp.body).width (p.Image_open rsp.body).height
          p.min_width p.min_height⟩)) ∧
    (¬((p.Image_open rsp.body).width < p.min_width ∨
        (p.Image_open rsp.body).height < p.min_height) →
      (get_images p rsp req info item).2 = none) := by
  constructor
  · intro h
    exact get_images_reject p rsp req info item h
  · intro h
    rw [get_images_accept p rsp req info item h]

/-- Witness for C5: a 4×3 source against a 50×50 minimum is rejected
with the error carrying both dimensions and yields zero artifacts; the
same source against a 4×3 minimum (exactly at the bound) is accepted. -/
theorem min_size_validation_witness :
    get_images exStrictPipe exRsp exReq (none : Option Unit) (none : Option Unit) =
      ([], some ⟨tooSmallMsg 4 3 50 50⟩) ∧
    (get_images exExactPipe exRsp exReq (none : Option Unit) (none : Option Unit)).2 = none :=
  ⟨(min_size_validation exStrictPipe exRsp exReq none none).1 (by decide),
   (min_size_validation exExactPipe exRsp exReq none none).2 (by decide)⟩

/-- C6: output ordering invariant — on success the emitted sequence is
the full-size triple first, then exactly one thumbnail per configured
spec, in configured order. -/
theorem output_order {Info Item : Type} (p : ImagesPipeline) (rsp : Response)
    (req : Request) (info : Option Info) (item : Option Item)
    (h : ¬((p.Image_open rsp.body).width < p.min_width ∨
      (p.Image_open rsp.body).height < p.min_height)) :
    (get_images p rsp req info item).1.map Prod.fst =
      file_path req (some rsp) info item ::
        p.thumbs.map (fun ts => thumb_path req ts.1 (some rsp) info item) ∧
    (get_images p rsp req info item).2 = none ∧
    (get_images p rsp req info item).1.length = 1 + p.thumbs.length := by
  rw [get_images_accept p rsp req info item h]
  refine ⟨?_, rfl, ?_⟩ <;> simp [Nat.add_comm]

/-- Witness for C6 at the two-thumbnail pipeline. -/
theorem output_order_witness :
    (get_images exPipe exRsp exReq (none : Option Unit) (none : Option Unit)).1.map Prod.fst =
      file_path exReq (some exRsp) (none : Option Unit) (none : Option Unit) ::
        exPipe.thumbs.map
          (fun ts => thumb_path exReq ts.1 (some exRsp) (none : Option Unit)
            (none : Option Unit)) ∧
    (get_images exPipe exRsp exReq (none : Option Unit) (none : Option Unit)).2 = none ∧
    (get_images exPipe exRsp exReq (none : Option Unit) (none : Option Unit)).1.length =
      1 + exPipe.thumbs.length :=
  output_order exPipe exRsp exReq none none (by decide)

/-- C10 (implicit): whenever `get_images` yields anything its first
yield is the full-size triple, so the checksum is assigned on the first
iteration, the final assertion can never fail, and `image_downloaded`
either propagates an error raised before any artifact was produced
(persisting nothing) or returns a checksum string. -/
theorem first_yield_full_and_total {Info Item : Type} (p : ImagesPipeline) (rsp : Response)
    (req : Request) (info : Option Info) (item : Option Item) :
    (image_downloaded p rsp req info item).2 ≠ .error .assertionFailed ∧
    ((get_images p rsp req info item).1 = [] ∨
      (get_images p rsp req info item).1.head? =
        some (file_path req (some rsp) info item,
          convert_image (p.Image_open rsp.body) none (some rsp.body))) ∧
    (image_downloaded p rsp req info item =
        ([], .error (.image ⟨tooSmallMsg (p.Image_open rsp.body).width
          (p.Image_open rsp.body).height p.min_width p.min_height⟩)) ∨
      ∃ c, (image_downloaded p rsp req info item).2 = .ok c) := by
  by_cases h : (p.Image_open rsp.body).width < p.min_width ∨
      (p.Image_open rsp.body).height < p.min_height
  · rw [image_downloaded_eq, get_images_reject p rsp req info item h]
    exact ⟨by simp, Or.inl rfl, Or.inl rfl⟩
  · rw [image_downloaded_eq, get_images_accept p rsp req info item h]
    have hfold := persistFold_cons
      (file_path req (some rsp) info item,
        convert_image (p.Image_open rsp.body) none (some rsp.body))
      (p.thumbs.map (fun ts => (thumb_path req ts.1 (some rsp) info item,
        convert_image (convert_image (p.Image_open rsp.body) none (some rsp.body)).1
          (some ts.2)
          (some (convert_image (p.Image_open rsp.body) none (some rsp.body)).2))))
    simp only [List.foldl_cons] at hfold
    refine ⟨?_, Or.inr rfl, Or.inr ?_⟩ <;> simp [hfold.1]

/-- C8: the checksum returned by `image_downloaded` is the hex-encoded
MD5 of the full-size artifact's final (post passthrough-or-encode)
bytes only, computed exactly once per invocation and independent of the
configured thumbnails. -/
theorem checksum_full_size_only {Info Item : Type} (p : ImagesPipeline) (rsp : Response)
    (req : Request) (info : Option Info) (item : Option Item)
    (h : ¬((p.Image_open rsp.body).width < p.min_width ∨
      (p.Image_open rsp.body).height < p.min_height)) :
    (image_downloaded p rsp req info item).2 =
      .ok (md5Hex (convert_image (p.Image_open rsp.body) none (some rsp.body)).2) ∧
    ((get_images p rsp req info item).1.foldl persistStep ⟨none, [], 0⟩).md5_calls = 1 ∧
    ∀ thumbs2 : List (String × Nat × Nat),
      (image_downloaded { p with thumbs := thumbs2 } rsp req info item).2 =
        (image_downloaded p rsp req info item).2 := by
  have key : ∀ q : ImagesPipeline, q.Image_open = p.Image_open → q.min_width = p.min_width →
      q.min_height = p.min_height →
      (image_downloaded q rsp req info item).2 =
        .ok (md5Hex (convert_image (p.Image_open rsp.body) none (some rsp.body)).2) := by
    intro q hq hw hh
    rw [image_downloaded_eq, get_images_accept q rsp req info item (by rw [hq, hw, hh]; exact h)]
    have hfold := persistFold_cons
      (file_path req (some rsp) info item,
        convert_image (q.Image_open rsp.body) none (some rsp.body))
      (q.thumbs.map (fun ts => (thumb_path req ts.1 (some rsp) info item,
        convert_image (convert_image (q.Image_open rsp.body) none (some rsp.body)).1
          (some ts.2)
          (some (convert_image (q.Image_open rsp.body) none (some rsp.body)).2))))
    simp only [List.foldl_cons, hq] at hfold
    simp [hq, hfold.1]
  refine ⟨key p rfl rfl rfl, ?_, fun thumbs2 => ?_⟩
  · rw [get_images_accept p rsp req info item h]
    exact (persistFold_cons _ _).2
  · rw [key { p with thumbs := thumbs2 } rfl rfl rfl, key p rfl rfl rfl]

/-- Witness for C8 at the two-thumbnail pipeline: the returned checksum
is the MD5 of the passed-through full-size bytes. -/
theorem checksum_full_size_only_witness :
    (image_downloaded exPipe exRsp exReq (none : Option Unit) (none : Option Unit)).2 =
      .ok (md5Hex (convert_image (exPipe.Image_open exRsp.body) none (some exRsp.body)).2) :=
  (checksum_full_size_only exPipe exRsp exReq none none (by decide)).1

/-! ## Thumbnail failure propagation (C3) -/

theorem run_thumbs_fail {Info Item : Type} (conv : Converter) (request : Request)
    (response : Option Response) (info : Option Info) (item : Option Item)
    (image : Img) (buf : List Nat) (pre : List (String × Nat × Nat)) (lab : String)
    (sz : Nat × Nat) (post : List (String × Nat × Nat)) (e : ImageException)
    (hpre : ∀ t ∈ pre, ∃ r, conv image (some t.2) (some buf) = .ok r)
    (hfail : conv image (some sz) (some buf) = .error e) :
    (run_thumbs conv request response info item image buf (pre ++ (lab, sz) :: post)).2 =
      some e ∧
    (run_thumbs conv request response info item image buf (pre ++ (lab, sz) :: post)).1.length
      = pre.length := by
  induction pre with
  | nil => simp [run_thumbs, hfail]
  | cons t rest ih =>
    obtain ⟨tid, tsz⟩ := t
    obtain ⟨r, hr⟩ := hpre (tid, tsz) (List.mem_cons_self _ _)
    have ih2 := ih (fun u hu => hpre u (List.mem_cons_of_mem _ hu))
    simp [run_thumbs, hr, ih2.1, ih2.2]

/-- C3 amended: when the full-size variant succeeds and the conversion
step fails on one configured thumbnail, the full-size triple (and every
thumbnail before the failing one) has already been yielded — the
full-size result is not aborted — but every thumbnail after the failing
one IS aborted and `image_downloaded` reports the exception for the
whole invocation, so partial success is not distinguishable from total
failure in the returned result. -/
theorem thumbnail_failure_propagates {Info Item : Type} (conv : Converter)
    (p : ImagesPipeline) (rsp : Response) (req : Request) (info : Option Info)
    (item : Option Item) (pre : List (String × Nat × Nat)) (lab : String) (sz : Nat × Nat)
    (post : List (String × Nat × Nat)) (e : ImageException) (image : Img) (buf : List Nat)
    (hvalid : ¬((p.Image_open rsp.body).width < p.min_width ∨
      (p.Image_open rsp.body).height < p.min_height))
    (hthumbs : p.thumbs = pre ++ (lab, sz) :: post)
    (hfull : conv (p.Image_open rsp.body) none (some rsp.body) = .ok (image, buf))
    (hpre : ∀ t ∈ pre, ∃ r, conv image (some t.2) (some buf) = .ok r)
    (hfail : conv image (some sz) (some buf) = .error e) :
    (get_images_with conv p rsp req info item).2 = some e ∧
    (get_images_with conv p rsp req info item).1.length = 1 + pre.length ∧
    (get_images_with conv p rsp req info item).1.head? =
      some (file_path req (some rsp) info item, image, buf) ∧
    (image_downloaded_with conv p rsp req info item).2 = .error (.image e) := by
  have hrun := run_thumbs_fail conv req (some rsp) info item image buf pre lab sz post e
    hpre hfail
  have hget : get_images_with conv p rsp req info item =
      ((file_path req (some rsp) info item, image, buf) ::
        (run_thumbs conv req (some rsp) info item image buf (pre ++ (lab, sz) :: post)).1,
       (run_thumbs conv req (some rsp) info item image buf (pre ++ (lab, sz) :: post)).2) := by
    unfold get_images_with
    rw [if_neg hvalid, hfull, hthumbs]
  refine ⟨?_, ?_, ?_, ?_⟩
  · rw [hget]; exact hrun.1
  · rw [hget]; simp [hrun.2, Nat.add_comm]
  · rw [hget]; rfl
  · unfold image_downloaded_with
    rw [hget]
    simp [hrun.1]

/-- Witness for the amended C3: the failing converter on the
two-thumbnail pipeline, failing at the first thumbnail with none before
it. -/
theorem thumbnail_failure_propagates_witness :
    (get_images_with exFailConv exPipe exRsp exReq (none : Option Unit)
      (some (0 : Nat))).2 = some ⟨"thumbnail failed"⟩ ∧
    (get_images_with exFailConv exPipe exRsp exReq (none : Option Unit)
      (some (0 : Nat))).1.length = 1 + List.length ([] : List (String × Nat × Nat)) ∧
    (get_images_with exFailConv exPipe exRsp exReq (none : Option Unit)
      (some (0 : Nat))).1.head? =
      some (file_path exReq (some exRsp) (none : Option Unit) (some (0 : Nat)),
        exJpegImg, exRsp.body) ∧
    (image_downloaded_with exFailConv exPipe exRsp exReq (none : Option Unit)
      (some (0 : Nat))).2 = .error (.image ⟨"thumbnail failed"⟩) :=
  thumbnail_failure_propagates exFailConv exPipe exRsp exReq (none : Option Unit)
    (some (0 : Nat)) [] "small" (100, 100) [("large", 300, 300)] ⟨"thumbnail failed"⟩
    exJpegImg exRsp.body (by decide) rfl rfl (by simp) rfl

/-- C3 counterexample: with two configured thumbnails and a conversion
step that fails on the first, the full-size variant succeeds but the
second (sibling) thumbnail is never derived — only one triple is
yielded — and the whole invocation reports the failure, refuting the
claimed per-thumbnail isolation and the distinguishability of partial
success. -/
theorem thumbnail_isolation_cex :
    exPipe.thumbs.length = 2 ∧
    (get_images_with exFailConv exPipe exRsp exReq (none : Option Unit)
      (none : Option Unit)).1.length = 1 ∧
    (get_images_with exFailConv exPipe exRsp exReq (none : Option Unit)
      (none : Option Unit)).2 = some ⟨"thumbnail failed"⟩ ∧
    (image_downloaded_with exFailConv exPipe exRsp exReq (none : Option Unit)
      (none : Option Unit)).2 = .error (.image ⟨"thumbnail failed"⟩) :=
  ⟨rfl, rfl, rfl, rfl⟩

/-! ## Bounding-box downscale (C2) -/

theorem one_le_round_aspect (v : ℚ) (k : Nat → ℚ) : 1 ≤ round_aspect v k :=
  le_max_right _ _

theorem round_aspect_le (v : ℚ) (k : Nat → ℚ) (n : Nat) (hn : 1 ≤ n) (hv : v ≤ n) :
    round_aspect v k ≤ n := by
  unfold round_aspect
  have hceil : ⌈v⌉₊ ≤ n := Nat.ceil_le.mpr hv
  have hfloor : ⌊v⌋₊ ≤ n := le_trans (Nat.floor_le_ceil v) hceil
  have hpick : (if k ⌊v⌋₊ ≤ k ⌈v⌉₊ then ⌊v⌋₊ else ⌈v⌉₊) ≤ n := by
    split <;> assumption
  exact max_le hpick hn

theorem round_aspect_close (v : ℚ) (k : Nat → ℚ) (hv : 0 ≤ v) :
    |(round_aspect v k : ℚ) - v| ≤ 1 := by
  unfold round_aspect
  rcases lt_or_le v 1 with h1 | h1
  · have hfl : ⌊v⌋₊ = 0 := Nat.floor_eq_zero.mpr h1
    have hcl : ⌈v⌉₊ ≤ 1 := Nat.ceil_le.mpr h1.le
    have hmax : max (if k ⌊v⌋₊ ≤ k ⌈v⌉₊ then ⌊v⌋₊ else ⌈v⌉₊) 1 = 1 := by
      apply max_eq_right
      split
      · simp [hfl]
      · exact hcl
    rw [hmax]
    rw [abs_of_nonneg (by push_cast; linarith)]
    push_cast
    linarith
  · have hfl1 : 1 ≤ ⌊v⌋₊ := Nat.le_floor (by exact_mod_cast h1)
    have hcl1 : 1 ≤ ⌈v⌉₊ := le_trans hfl1 (Nat.floor_le_ceil v)
    have hmax : max (if k ⌊v⌋₊ ≤ k ⌈v⌉₊ then ⌊v⌋₊ else ⌈v⌉₊) 1 =
        (if k ⌊v⌋₊ ≤ k ⌈v⌉₊ then ⌊v⌋₊ else ⌈v⌉₊) := by
      apply max_eq_left
      split <;> assumption
    rw [hmax]
    split
    · have ha : (⌊v⌋₊ : ℚ) ≤ v := Nat.floor_le hv
      have hb : v < ⌊v⌋₊ + 1 := Nat.lt_floor_add_one v
      rw [abs_le]
      constructor <;> linarith
    · have ha : v ≤ ⌈v⌉₊ := Nat.le_ceil v
      have hb : (⌈v⌉₊ : ℚ) < v + 1 := Nat.ceil_lt_add_one hv
      rw [abs_le]
      constructor <;> linarith

set_option maxHeartbeats 1600000 in
theorem pil_thumbnail_size_spec (w h x y : Nat) (hw : 0 < w) (hh : 0 < h)
    (hx : 0 < x) (hy : 0 < y) :
    (pil_thumbnail_size w h x y).1 ≤ x ∧ (pil_thumbnail_size w h x y).2 ≤ y ∧
    (pil_thumbnail_size w h x y).1 ≤ w ∧ (pil_thumbnail_size w h x y).2 ≤ h ∧
    |((pil_thumbnail_size w h x y).1 : ℚ) * h - ((pil_thumbnail_size w h x y).2 : ℚ) * w|
      ≤ max (w : ℚ) (h : ℚ) := by
  have hwQ : (0 : ℚ) < w := by exact_mod_cast hw
  have hhQ : (0 : ℚ) < h := by exact_mod_cast hh
  have hxQ : (0 : ℚ) < x := by exact_mod_cast hx
  have hyQ : (0 : ℚ) < y := by exact_mod_cast hy
  unfold pil_thumbnail_size
  dsimp only
  split
  · next hbox =>
    refine ⟨hbox.1, hbox.2, le_refl _, le_refl _, ?_⟩
    rw [mul_comm]
    simp
  · next hbox =>
    split
    · next hasp =>
      -- shrink width to fit: the box is relatively wider than the image
      rw [ge_iff_le, div_le_div_iff hhQ hyQ] at hasp
      -- hasp : w * y ≤ x * h
      have hyh : y < h := by
        rcases Nat.lt_or_ge y h with hyh | hyh
        · exact hyh
        · exfalso
          have hyhQ : (h : ℚ) ≤ y := by exact_mod_cast hyh
          have h1 : (w : ℚ) * h ≤ w * y := by nlinarith
          have h2 : (w : ℚ) * h ≤ x * h := by linarith
          have h3 : (w : ℚ) ≤ x := le_of_mul_le_mul_right h2 hhQ
          exact hbox ⟨by exact_mod_cast h3, hyh⟩
      set v : ℚ := (y : ℚ) * ((w : ℚ) / (h : ℚ)) with hvdef
      have hveq : v = ((y : ℚ) * w) / h := by rw [hvdef, mul_div_assoc]
      have hv0 : 0 ≤ v := by rw [hveq]; positivity
      have hvx : v ≤ (x : ℚ) := by
        rw [hveq, div_le_iff hhQ]
        nlinarith
      have hvw : v < (w : ℚ) := by
        rw [hveq, div_lt_iff hhQ]
        have hyhQ : (y : ℚ) < h := by exact_mod_cast hyh
        nlinarith
      refine ⟨round_aspect_le v (fun n => |(w : ℚ) / h - (n : ℚ) / y|) x hx hvx, le_refl _,
        round_aspect_le v (fun n => |(w : ℚ) / h - (n : ℚ) / y|) w hw hvw.le, hyh.le, ?_⟩
      show |(round_aspect v (fun n => |(w : ℚ) / h - (n : ℚ) / y|) : ℚ) * h - (y : ℚ) * w|
          ≤ max (w : ℚ) (h : ℚ)
      set ra := round_aspect v (fun n => |(w : ℚ) / h - (n : ℚ) / y|) with hradef
      have hclose : |(ra : ℚ) - v| ≤ 1 := by
        rw [hradef]
        exact round_aspect_close v (fun n => |(w : ℚ) / h - (n : ℚ) / y|) hv0
      have hrw : (ra : ℚ) * h - (y : ℚ) * w = ((ra : ℚ) - v) * h := by
        rw [hveq]
        field_simp
      calc |(ra : ℚ) * h - (y : ℚ) * w| = |(ra : ℚ) - v| * h := by
            rw [hrw, abs_mul, abs_of_pos hhQ]
        _ ≤ 1 * h := mul_le_mul_of_nonneg_right hclose hhQ.le
        _ = h := one_mul _
        _ ≤ max (w : ℚ) h := le_max_right _ _
    · next hasp =>
      -- shrink height to fit: the box is relatively taller than the image
      rw [ge_iff_le, not_le, div_lt_div_iff hyQ hhQ] at hasp
      -- hasp : x * h < w * y
      have hxw : x < w := by
        rcases Nat.lt_or_ge x w with hxw | hxw
        · exact hxw
        · exfalso
          have hyh : y < h := by
            rcases Nat.lt_or_ge y h with hyh | hyh
            · exact hyh
            · exact absurd ⟨hxw, hyh⟩ hbox
          have hxwQ : (w : ℚ) ≤ x := by exact_mod_cast hxw
          have hyhQ : (y : ℚ) < h := by exact_mod_cast hyh
          nlinarith
      set v : ℚ := (x : ℚ) / ((w : ℚ) / (h : ℚ)) with hvdef
      have hveq : v = ((x : ℚ) * h) / w := by rw [hvdef, div_div_eq_mul_div]
      have hv0 : 0 ≤ v := by rw [hveq]; positivity
      have hvy : v ≤ (y : ℚ) := by
        rw [hveq, div_le_iff hwQ]
        nlinarith
      have hvh : v < (h : ℚ) := by
        rw [hveq, div_lt_iff hwQ]
        have hxwQ : (x : ℚ) < w := by exact_mod_cast hxw
        nlinarith
      refine ⟨le_refl _,
        round_aspect_le v
          (fun n => if n = 0 then 0 else |(w : ℚ) / h - (x : ℚ) / (n : ℚ)|) y hy hvy,
        hxw.le,
        round_aspect_le v
          (fun n => if n = 0 then 0 else |(w : ℚ) / h - (x : ℚ) / (n : ℚ)|) h hh hvh.le,
        ?_⟩
      show |(x : ℚ) * h -
          (round_aspect v
            (fun n => if n = 0 then 0 else |(w : ℚ) / h - (x : ℚ) / (n : ℚ)|) : ℚ) * w|
          ≤ max (w : ℚ) (h : ℚ)
      set ra := round_aspect v
        (fun n => if n = 0 then 0 else |(w : ℚ) / h - (x : ℚ) / (n : ℚ)|) with hradef
      have hclose : |(ra : ℚ) - v| ≤ 1 := by
        rw [hradef]
        exact round_aspect_close v
          (fun n => if n = 0 then 0 else |(w : ℚ) / h - (x : ℚ) / (n : ℚ)|) hv0
      have hrw : (x : ℚ) * h - (ra : ℚ) * w = -(((ra : ℚ) - v) * w) := by
        rw [hveq]
        field_simp
      calc |(x : ℚ) * h - (ra : ℚ) * w| = |(ra : ℚ) - v| * w := by
            rw [hrw, abs_neg, abs_mul, abs_of_pos hwQ]
        _ ≤ 1 * w := mul_le_mul_of_nonneg_right hclose hwQ.le
        _ = w := one_mul _
        _ ≤ max (w : ℚ) h := le_max_left _ _

/-- C2: for every thumbnail bound `(W, H)` with `W > 0`, `H > 0` and
every source image of positive size `(w, h)`, the thumbnail produced by
`convert_image` fits the box (`width ≤ W`, `height ≤ H`), never
upscales (`width ≤ w`, `height ≤ h`), and preserves the aspect ratio
within rounding tolerance: the cross products `width⬝h` and `height⬝w`
differ by at most `max w h` (i.e. the rounded axis is within one pixel
of the exact aspect-preserving value). -/
theorem thumbnail_bounds (image : Img) (W H : Nat) (rb : Option (List Nat))
    (hW : 0 < W) (hH : 0 < H) (hw : 0 < image.width) (hh : 0 < image.height) :
    (convert_image image (some (W, H)) rb).1.width ≤ W ∧
    (convert_image image (some (W, H)) rb).1.height ≤ H ∧
    (convert_image image (some (W, H)) rb).1.width ≤ image.width ∧
    (convert_image image (some (W, H)) rb).1.height ≤ image.height ∧
    |((convert_image image (some (W, H)) rb).1.width : ℚ) * image.height -
        ((convert_image image (some (W, H)) rb).1.height : ℚ) * image.width|
      ≤ max (image.width : ℚ) (image.height : ℚ) := by
  have hsz := thumbnailOp_size (normalizeColor image) (W, H)
  rw [normalizeColor_width, normalizeColor_height] at hsz
  have h1 := congrArg Prod.fst hsz
  have h2 := congrArg Prod.snd hsz
  dsimp only at h1 h2
  have hspec := pil_thumbnail_size_spec image.width image.height W H hw hh hW hH
  rw [convert_image_some_eq]
  dsimp only
  rw [h1, h2]
  exact hspec

/-- Witness for C2: the spec's own scenario, an 800×600 source bounded
by (100, 100). -/
theorem thumbnail_bounds_witness :
    (convert_image
        { width := 800, height := 600, mode := "RGB", format := some "JPEG",
          palette := fun _ => ⟨0, 0, 0, 0⟩, px := fun _ _ => ⟨10, 20, 30, 255⟩ }
        (some (100, 100)) none).1.width ≤ 100 ∧
    (convert_image
        { width := 800, height := 600, mode := "RGB", format := some "JPEG",
          palette := fun _ => ⟨0, 0, 0, 0⟩, px := fun _ _ => ⟨10, 20, 30, 255⟩ }
        (some (100, 100)) none).1.height ≤ 100 ∧
    (convert_image
        { width := 800, height := 600, mode := "RGB", format := some "JPEG",
          palette := fun _ => ⟨0, 0, 0, 0⟩, px := fun _ _ => ⟨10, 20, 30, 255⟩ }
        (some (100, 100)) none).1.width ≤ 800 ∧
    (convert_image
        { width := 800, height := 600, mode := "RGB", format := some "JPEG",
          palette := fun _ => ⟨0, 0, 0, 0⟩, px := fun _ _ => ⟨10, 20, 30, 255⟩ }
        (some (100, 100)) none).1.height ≤ 600 ∧
    |((convert_image
        { width := 800, height := 600, mode := "RGB", format := some "JPEG",
          palette := fun _ => ⟨0, 0, 0, 0⟩, px := fun _ _ => ⟨10, 20, 30, 255⟩ }
        (some (100, 100)) none).1.width : ℚ) * 600 -
      ((convert_image
        { width := 800, height := 600, mode := "RGB", format := some "JPEG",
          palette := fun _ => ⟨0, 0, 0, 0⟩, px := fun _ _ => ⟨10, 20, 30, 255⟩ }
        (some (100, 100)) none).1.height : ℚ) * 800| ≤ max (800 : ℚ) 600 :=
  thumbnail_bounds
    { width := 800, height := 600, mode := "RGB", format := some "JPEG",
      palette := fun _ => ⟨0, 0, 0, 0⟩, px := fun _ _ => ⟨10, 20, 30, 255⟩ }
    100 100 none (by decide) (by decide) (by decide) (by decide)

end Images
